import Mathlib

/-!
# Verification of the splurge-typer type-inference engine

A shallow embedding of the splurge-typer library: the scalar classifier
(`String` module predicates and converters), the single-value inference
(`infer_type`, `convert_value`, `can_infer`) and the collection profiler
(`profile_values`).  Python text values are embedded as `List Char`; host
values are embedded as a tagged union `Value`; fallible conversions return
`Option`.  The library implementation itself is modelled from the
specification (only its tests ship in this snapshot), so every definition
below carries a doc comment naming the spec rule it encodes.
-/

namespace SplurgeTyper

/-- Modelled from the spec: the closed result enumeration `DataType` of all
inference calls (§3). -/
inductive DataType where
  | STRING
  | INTEGER
  | FLOAT
  | BOOLEAN
  | DATE
  | TIME
  | DATETIME
  | MIXED
  | EMPTY
  | NONE
deriving DecidableEq, Repr, Fintype

/-- Text is embedded as a list of characters. -/
abbrev Chars := List Char

/-- Ascii decimal digit test, written over the character code. -/
def isDigitC (c : Char) : Bool :=
  decide (48 ≤ c.toNat ∧ c.toNat ≤ 57)

/-- Sign characters admitted by the numeric grammars. -/
def isSignChar (c : Char) : Bool :=
  c = '+' || c = '-'

/-- Modelled from the spec: whitespace characters removed by trimming
(Python `str.strip`, ASCII whitespace). -/
def isSpaceC (c : Char) : Bool :=
  c.toNat = 32 || c.toNat = 9 || c.toNat = 10 || c.toNat = 11 ||
  c.toNat = 12 || c.toNat = 13

/-- Lower-casing of one character (ASCII), used for case-insensitive
word-set matching. -/
def lowerChar (c : Char) : Char :=
  if 65 ≤ c.toNat ∧ c.toNat ≤ 90 then Char.ofNat (c.toNat + 32) else c

/-- Lower-casing of a whole text. -/
def lowerList (cs : Chars) : Chars :=
  cs.map lowerChar

/-- Drop leading whitespace. -/
def trimLeft (cs : Chars) : Chars :=
  cs.dropWhile isSpaceC

/-- Drop trailing whitespace. -/
def trimRight (cs : Chars) : Chars :=
  (cs.reverse.dropWhile isSpaceC).reverse

/-- Modelled from the spec: leading/trailing whitespace trimming applied
before grammar matching (§3, §4.1). -/
def trimList (cs : Chars) : Chars :=
  trimRight (trimLeft cs)

/-- Strip one optional leading sign character. -/
def stripSign (cs : Chars) : Chars :=
  match cs with
  | [] => []
  | c :: rest => if isSignChar c then rest else cs

/-- Modelled from the spec: integer-like grammar — optional sign, one or
more digits, no decimal point, leading zeros allowed (§4.1). -/
def is_int_like_chars (cs : Chars) : Bool :=
  let ds := stripSign cs
  !ds.isEmpty && ds.all isDigitC

/-- Modelled from the spec: float-like grammar — optional sign, digits with
a single optional decimal point, at least one digit present overall;
scientific notation is not matched (§4.1). -/
def is_float_like_chars (cs : Chars) : Bool :=
  let ds := stripSign cs
  ds.all (fun c => isDigitC c || c = '.') &&
  (ds.filter (fun c => c = '.')).length ≤ 1 &&
  ds.any isDigitC

/-- Modelled from the spec: boolean-like — case-insensitive exact match
against the fixed word set true/false/yes/no (§4.1). -/
def is_bool_like_chars (cs : Chars) : Bool :=
  lowerList cs = "true".toList || lowerList cs = "false".toList ||
  lowerList cs = "yes".toList || lowerList cs = "no".toList

/-- Modelled from the spec: none-like — case-insensitive exact match
against none/null (§4.1). -/
def is_none_like_chars (cs : Chars) : Bool :=
  lowerList cs = "none".toList || lowerList cs = "null".toList

/-- Numeric value of a digit character. -/
def dval (c : Char) : Nat :=
  c.toNat - 48

/-- Decimal value of a digit string, most significant digit first. -/
def charsToNat (ds : Chars) : Nat :=
  ds.foldl (fun a c => a * 10 + dval c) 0

/-- Two-digit field value. -/
def num2 (a b : Char) : Nat :=
  dval a * 10 + dval b

/-- Four-digit field value. -/
def num4 (a b c d : Char) : Nat :=
  ((dval a * 10 + dval b) * 10 + dval c) * 10 + dval d

/-- Date separator characters admitted by the date patterns. -/
def isDateSep (c : Char) : Bool :=
  c = '-' || c = '/' || c = '.'

/-- Gregorian leap-year rule. -/
def isLeap (y : Nat) : Bool :=
  y % 4 = 0 && (y % 100 ≠ 0 || y % 400 = 0)

/-- Days in a month of a given year. -/
def daysInMonth (y m : Nat) : Nat :=
  if m = 2 then (if isLeap y then 29 else 28)
  else if m = 4 ∨ m = 6 ∨ m = 9 ∨ m = 11 then 30
  else 31

/-- Modelled from the spec: a date must be a real calendar date —
`2023-02-30` is rejected (§4.1). -/
def validDate (y m d : Nat) : Bool :=
  1 ≤ y && y ≤ 9999 && 1 ≤ m && m ≤ 12 && 1 ≤ d && d ≤ daysInMonth y m

/-- Modelled from the spec: date grammar — `YYYY-MM-DD`, `YYYY/MM/DD`,
`YYYY.MM.DD`, `YYYYMMDD`, `MM-DD-YYYY`, `MM/DD/YYYY`, `MM.DD.YYYY`,
`MMDDYYYY`, with calendar validation (§4.1). -/
def parseDateChars (cs : Chars) : Option (Nat × Nat × Nat) :=
  match cs with
  | [a, b, c, d, e, f, g, h] =>
    if [a, b, c, d, e, f, g, h].all isDigitC then
      let y1 := num4 a b c d
      let m1 := num2 e f
      let d1 := num2 g h
      if validDate y1 m1 d1 then some (y1, m1, d1)
      else
        let y2 := num4 e f g h
        let m2 := num2 a b
        let d2 := num2 c d
        if validDate y2 m2 d2 then some (y2, m2, d2) else none
    else none
  | [p0, p1, p2, p3, p4, p5, p6, p7, p8, p9] =>
    if isDateSep p4 && p7 = p4 &&
        [p0, p1, p2, p3, p5, p6, p8, p9].all isDigitC then
      let y := num4 p0 p1 p2 p3
      let m := num2 p5 p6
      let d := num2 p8 p9
      if validDate y m d then some (y, m, d) else none
    else if isDateSep p2 && p5 = p2 &&
        [p0, p1, p3, p4, p6, p7, p8, p9].all isDigitC then
      let m := num2 p0 p1
      let d := num2 p3 p4
      let y := num4 p6 p7 p8 p9
      if validDate y m d then some (y, m, d) else none
    else none
  | _ => none

/-- Validity of a 24-hour time triple. -/
def valid24 (h mi s : Nat) : Bool :=
  h ≤ 23 && mi ≤ 59 && s ≤ 59

/-- Modelled from the spec: the 24-hour time forms `HH:MM:SS`, `HH:MM` and
compact `HHMMSS` with range validation — `25:00:00` is rejected (§4.1). -/
def parseTime24Chars (cs : Chars) : Option (Nat × Nat × Nat) :=
  match cs with
  | [h1, h2, ':', m1, m2, ':', s1, s2] =>
    if [h1, h2, m1, m2, s1, s2].all isDigitC then
      let h := num2 h1 h2
      let mi := num2 m1 m2
      let s := num2 s1 s2
      if valid24 h mi s then some (h, mi, s) else none
    else none
  | [h1, h2, ':', m1, m2] =>
    if [h1, h2, m1, m2].all isDigitC then
      let h := num2 h1 h2
      let mi := num2 m1 m2
      if valid24 h mi 0 then some (h, mi, 0) else none
    else none
  | [h1, h2, m1, m2, s1, s2] =>
    if [h1, h2, m1, m2, s1, s2].all isDigitC then
      let h := num2 h1 h2
      let mi := num2 m1 m2
      let s := num2 s1 s2
      if valid24 h mi s then some (h, mi, s) else none
    else none
  | _ => none

/-- Meridiem suffix letter test (A or P, either case). -/
def isMeridA (c : Char) : Bool :=
  c = 'A' || c = 'a'

/-- Meridiem suffix letter test (P). -/
def isMeridP (c : Char) : Bool :=
  c = 'P' || c = 'p'

/-- Trailing M of the meridiem suffix, either case. -/
def isMeridM (c : Char) : Bool :=
  c = 'M' || c = 'm'

/-- Fold a 12-hour reading into a 24-hour triple, or fail on bad ranges. -/
def mk12 (pm : Bool) (h mi s : Nat) : Option (Nat × Nat × Nat) :=
  if 1 ≤ h && h ≤ 12 && mi ≤ 59 && s ≤ 59 then
    let h24 := if pm then (if h = 12 then 12 else h + 12)
               else (if h = 12 then 0 else h)
    some (h24, mi, s)
  else none

/-- Modelled from the spec: 12-hour time forms with an `AM`/`PM` suffix,
such as `2:30 PM` and `2:30:00 PM` (§4.1). -/
def parseTime12Chars (cs : Chars) : Option (Nat × Nat × Nat) :=
  match cs with
  | [h1, ':', m1, m2, ' ', x, m] =>
    if [h1, m1, m2].all isDigitC && (isMeridA x || isMeridP x) && isMeridM m then
      mk12 (isMeridP x) (dval h1) (num2 m1 m2) 0
    else none
  | [h1, h2, ':', m1, m2, ' ', x, m] =>
    if [h1, h2, m1, m2].all isDigitC && (isMeridA x || isMeridP x) && isMeridM m then
      mk12 (isMeridP x) (num2 h1 h2) (num2 m1 m2) 0
    else none
  | [h1, ':', m1, m2, ':', s1, s2, ' ', x, m] =>
    if [h1, m1, m2, s1, s2].all isDigitC && (isMeridA x || isMeridP x) && isMeridM m then
      mk12 (isMeridP x) (dval h1) (num2 m1 m2) (num2 s1 s2)
    else none
  | [h1, h2, ':', m1, m2, ':', s1, s2, ' ', x, m] =>
    if [h1, h2, m1, m2, s1, s2].all isDigitC && (isMeridA x || isMeridP x) && isMeridM m then
      mk12 (isMeridP x) (num2 h1 h2) (num2 m1 m2) (num2 s1 s2)
    else none
  | _ => none

/-- Modelled from the spec: time-like accepts the 24-hour forms or the
12-hour forms with a meridiem suffix (§4.1). -/
def parseTimeChars (cs : Chars) : Option (Nat × Nat × Nat) :=
  match parseTime24Chars cs with
  | some t => some t
  | none => parseTime12Chars cs

/-- Modelled from the spec: datetime grammar — a date-like segment, then a
literal `T` or a single space, then a 24-hour time-like segment (§4.1). -/
def parseDatetimeChars (cs : Chars) : Option ((Nat × Nat × Nat) × (Nat × Nat × Nat)) :=
  let dpart := cs.takeWhile (fun c => !(c = 'T' || c = ' '))
  let rest := cs.dropWhile (fun c => !(c = 'T' || c = ' '))
  match rest with
  | _ :: tpart =>
    match parseDateChars dpart, parseTime24Chars tpart with
    | some d, some t => some (d, t)
    | _, _ => none
  | [] => none

/-- Apply the trim flag (default true in the library) to a text. -/
def applyTrim (trim : Bool) (cs : Chars) : Chars :=
  if trim then trimList cs else cs

/-- Modelled from the spec: `String.is_int_like` with its `trim` flag. -/
def is_int_like (cs : Chars) (trim : Bool := true) : Bool :=
  is_int_like_chars (applyTrim trim cs)

/-- Modelled from the spec: `String.is_float_like` with its `trim` flag. -/
def is_float_like (cs : Chars) (trim : Bool := true) : Bool :=
  is_float_like_chars (applyTrim trim cs)

/-- Modelled from the spec: `String.is_bool_like` with its `trim` flag. -/
def is_bool_like (cs : Chars) (trim : Bool := true) : Bool :=
  is_bool_like_chars (applyTrim trim cs)

/-- Modelled from the spec: `String.is_none_like` on text with its `trim`
flag. -/
def is_none_like (cs : Chars) (trim : Bool := true) : Bool :=
  is_none_like_chars (applyTrim trim cs)

/-- Modelled from the spec: empty-like — a string whose trimmed form has
zero length (§4.1). -/
def is_empty_like (cs : Chars) (trim : Bool := true) : Bool :=
  (applyTrim trim cs).isEmpty

/-- Modelled from the spec: `String.is_date_like`. -/
def is_date_like (cs : Chars) (trim : Bool := true) : Bool :=
  (parseDateChars (applyTrim trim cs)).isSome

/-- Modelled from the spec: `String.is_time_like`. -/
def is_time_like (cs : Chars) (trim : Bool := true) : Bool :=
  (parseTimeChars (applyTrim trim cs)).isSome

/-- Modelled from the spec: `String.is_datetime_like`. -/
def is_datetime_like (cs : Chars) (trim : Bool := true) : Bool :=
  (parseDatetimeChars (applyTrim trim cs)).isSome

/-- Signed decimal value of an integer-like text (shape assumed). -/
def readInt (cs : Chars) : Int :=
  match cs with
  | [] => 0
  | c :: ds =>
    if c = '-' then -(charsToNat ds : Int)
    else if c = '+' then (charsToNat ds : Int)
    else (charsToNat (c :: ds) : Int)

/-- Modelled from the spec: `String.to_int` — parses an integer-like text,
yields no value otherwise (§4.1). -/
def to_int (cs : Chars) (trim : Bool := true) : Option Int :=
  let t := applyTrim trim cs
  if is_int_like_chars t then some (readInt t) else none

/-- A parsed decimal fraction, `mantissa / 10 ^ scale`: the embedding of a
host float produced by float conversion. -/
structure DecFloat where
  mantissa : Int
  scale : Nat
deriving DecidableEq, Repr

/-- Unsigned decimal-fraction reading of a digits-and-dot text. -/
def readDecDigits (ds : Chars) : DecFloat :=
  let ip := ds.takeWhile (fun c => c ≠ '.')
  let fp := (ds.dropWhile (fun c => c ≠ '.')).drop 1
  { mantissa := (charsToNat (ip ++ fp) : Int), scale := fp.length }

/-- Signed decimal-fraction reading of a float-like text (shape assumed). -/
def readDec (cs : Chars) : DecFloat :=
  match cs with
  | '-' :: ds => let f := readDecDigits ds; { f with mantissa := -f.mantissa }
  | '+' :: ds => readDecDigits ds
  | ds => readDecDigits ds

/-- Modelled from the spec: `String.to_float` — parses a float-like text,
yields no value otherwise (§4.1). -/
def to_float (cs : Chars) (trim : Bool := true) : Option DecFloat :=
  let t := applyTrim trim cs
  if is_float_like_chars t then some (readDec t) else none

/-- Modelled from the spec: `String.to_bool` — maps true/yes to true and
false/no to false case-insensitively, anything else to no value (§4.1). -/
def to_bool (cs : Chars) (trim : Bool := true) : Option Bool :=
  let t := lowerList (applyTrim trim cs)
  if t = "true".toList ∨ t = "yes".toList then some true
  else if t = "false".toList ∨ t = "no".toList then some false
  else none

/-- Modelled from the spec: `String.to_date`. -/
def to_date (cs : Chars) (trim : Bool := true) : Option (Nat × Nat × Nat) :=
  parseDateChars (applyTrim trim cs)

/-- Modelled from the spec: `String.to_time`. -/
def to_time (cs : Chars) (trim : Bool := true) : Option (Nat × Nat × Nat) :=
  parseTimeChars (applyTrim trim cs)

/-- Modelled from the spec: `String.to_datetime`. -/
def to_datetime (cs : Chars) (trim : Bool := true) :
    Option ((Nat × Nat × Nat) × (Nat × Nat × Nat)) :=
  parseDatetimeChars (applyTrim trim cs)

/-- Modelled from the spec: the closed union of host values the entry
points accept — text, or an already-typed native value, or the absence
marker (§3, §9). -/
inductive Value where
  | VStr (s : Chars)
  | VInt (n : Int)
  | VFloat (f : DecFloat)
  | VBool (b : Bool)
  | VDate (y m d : Nat)
  | VTime (h mi s : Nat)
  | VDatetime (y mo d h mi s : Nat)
  | VNone
deriving DecidableEq, Repr

/-- Modelled from the spec: the priority-ordered classification of one
trimmed text — empty, none-like, then integer, float, boolean, date, time,
datetime, falling through to plain string (§4.2). -/
def inferStr (t : Chars) : DataType :=
  if t.isEmpty then .EMPTY
  else if is_none_like_chars t then .NONE
  else if is_int_like_chars t then .INTEGER
  else if is_float_like_chars t then .FLOAT
  else if is_bool_like_chars t then .BOOLEAN
  else if (parseDateChars t).isSome then .DATE
  else if (parseTimeChars t).isSome then .TIME
  else if (parseDatetimeChars t).isSome then .DATETIME
  else .STRING

/-- Modelled from the spec: `infer_type` with a trim flag — native values
map to their intrinsic type, the absence marker to `NONE`, text through the
ordered grammar checks (§4.2). -/
def inferValue (trim : Bool) (v : Value) : DataType :=
  match v with
  | .VStr s => inferStr (applyTrim trim s)
  | .VInt _ => .INTEGER
  | .VFloat _ => .FLOAT
  | .VBool _ => .BOOLEAN
  | .VDate _ _ _ => .DATE
  | .VTime _ _ _ => .TIME
  | .VDatetime _ _ _ _ _ _ => .DATETIME
  | .VNone => .NONE

/-- Modelled from the spec: `infer_type` at its default trim setting. -/
def infer_type (v : Value) : DataType :=
  inferValue true v

/-- Modelled from the unit-test record (the spec's §4.2 wording disagrees
with the shipped test): `can_infer` — true only for string inputs whose
inference goes beyond plain `STRING` (empty/whitespace strings included,
since they infer `EMPTY`); false for strings inferring `STRING`, for
non-string host values and for the absence marker.  The test asserts
`can_infer("123")` true, `can_infer("hello")` false, `can_infer("")` and
`can_infer("   ")` true, `can_infer(123)` and `can_infer(None)` false. -/
def can_infer (v : Value) : Bool :=
  match v with
  | .VStr s => infer_type (.VStr s) != .STRING
  | _ => false

/-- Modelled from the spec: `is_numeric_like` — integer-like or float-like
text, or a native numeric or boolean host value (§4.1). -/
def is_numeric_like (v : Value) : Bool :=
  match v with
  | .VStr s => is_int_like s || is_float_like s
  | .VInt _ => true
  | .VFloat _ => true
  | .VBool _ => true
  | _ => false

/-- Modelled from the spec: `convert_value` on one trimmed text — the same
classification order as `inferStr`, applying the matching conversion;
non-convertible text is returned unchanged, empty text as the trimmed empty
string (§4.2). -/
def convertStr (orig : Chars) : Value :=
  let t := trimList orig
  if t.isEmpty then .VStr []
  else if is_none_like_chars t then .VNone
  else if is_int_like_chars t then .VInt (readInt t)
  else if is_float_like_chars t then .VFloat (readDec t)
  else
    match to_bool t false with
    | some b => .VBool b
    | none =>
      match parseDateChars t with
      | some (y, m, d) => .VDate y m d
      | none =>
        match parseTimeChars t with
        | some (h, mi, s) => .VTime h mi s
        | none =>
          match parseDatetimeChars t with
          | some ((y, mo, d), (h, mi, s)) => .VDatetime y mo d h mi s
          | none => .VStr orig

/-- Modelled from the spec: `convert_value` — native typed inputs pass
through unchanged, text is classified and converted (§4.2). -/
def convert_value (v : Value) : Value :=
  match v with
  | .VStr s => convertStr s
  | w => w

/-- Modelled from the spec: the pairwise dominance/promotion rule of the
collection profiler — `EMPTY` elements are skipped, the first non-empty
type seeds the dominant type, `INTEGER` and `FLOAT` widen to `FLOAT`, any
other differing pair collapses to `MIXED` (§4.3). -/
def mergeType (cur : Option DataType) (t : DataType) : Option DataType :=
  if t = .EMPTY then cur
  else
    match cur with
    | none => some t
    | some c =>
      if c = t then some c
      else if (c = .INTEGER ∧ t = .FLOAT) ∨ (c = .FLOAT ∧ t = .INTEGER) then
        some .FLOAT
      else some .MIXED

/-- The full linear scan: fold every element's inferred type into the
dominant type, with no early exit. -/
def profileFold (trim : Bool) (cur : Option DataType) (l : List Value) :
    Option DataType :=
  l.foldl (fun c v => mergeType c (inferValue trim v)) cur

/-- Modelled from the spec: the incremental scan used at or beyond the
threshold — identical folding, but the scan stops as soon as the dominant
type reaches `MIXED` (§4.3 step 5, §9). -/
def profileEarly (trim : Bool) : Option DataType → List Value → Option DataType
  | some .MIXED, _ => some .MIXED
  | cur, [] => cur
  | cur, v :: vs => profileEarly trim (mergeType cur (inferValue trim v)) vs

/-- Map the final fold state to the profiler result: no non-empty element
seen falls through to `EMPTY` (§4.3). -/
def finishProfile (cur : Option DataType) : DataType :=
  match cur with
  | none => .EMPTY
  | some t => t

/-- Modelled from the spec: the process-wide incremental-typecheck
threshold, a positive integer constant (§4.3, §6); the spec's boundary
example (999 vs 1001 elements) places it at 1000. -/
def get_incremental_typecheck_threshold : Nat := 1000

/-- Modelled from the spec: the profiling reduction over a sequence of
values — a full scan below the threshold, the early-exit incremental scan
at or beyond it (§4.3). -/
def profileList (trim : Bool) (l : List Value) : DataType :=
  if l.length < get_incremental_typecheck_threshold then
    finishProfile (profileFold trim none l)
  else
    finishProfile (profileEarly trim none l)

/-- Modelled from the spec: a host argument handed to `profile_values` — an
iterable non-string sequence, or a scalar/string rejected by the
capability probe (§4.3, §4.4). -/
inductive ProfileArg where
  | seq (l : List Value)
  | scalar (v : Value)
deriving Repr

/-- Modelled from the spec: the capability probe consumed at the profiler
boundary — true only for iterables that are not strings (§4.4). -/
def is_iterable_not_string (a : ProfileArg) : Bool :=
  match a with
  | .seq _ => true
  | .scalar _ => false

/-- Modelled from the spec: `profile_values` — rejects a non-iterable or
string argument with a descriptive usage error, otherwise reduces the
sequence to its dominant type (§4.3, §7). -/
def profile_values (a : ProfileArg) (trim : Bool := true) :
    Except (List Char) DataType :=
  if is_iterable_not_string a then
    match a with
    | .seq l => .ok (profileList trim l)
    | .scalar _ => .error "values must be iterable".toList
  else .error "values must be iterable".toList

/-! ## Helper lemmas -/

/-- A dominant type of `MIXED` absorbs every further element type. -/
theorem mergeType_mixed (t : DataType) : mergeType (some .MIXED) t = some .MIXED := by
  revert t; decide

/-- Skipping rule: an `EMPTY` element never changes the fold state. -/
theorem mergeType_empty (cur : Option DataType) : mergeType cur .EMPTY = cur := by
  simp [mergeType]

/-- Unfolding of the full scan over a cons cell. -/
theorem profileFold_cons (tr : Bool) (cur : Option DataType) (v : Value)
    (l : List Value) :
    profileFold tr cur (v :: l) = profileFold tr (mergeType cur (inferValue tr v)) l := rfl

/-- The full scan started at `MIXED` stays at `MIXED`. -/
theorem profileFold_mixed (tr : Bool) (l : List Value) :
    profileFold tr (some .MIXED) l = some .MIXED := by
  induction l with
  | nil => rfl
  | cons v vs ih => rw [profileFold_cons, mergeType_mixed]; exact ih

/-- The early-exit incremental scan computes exactly the full linear scan. -/
theorem profileEarly_eq_fold (tr : Bool) (l : List Value) (cur : Option DataType) :
    profileEarly tr cur l = profileFold tr cur l := by
  induction l generalizing cur with
  | nil => cases cur with
    | none => rfl
    | some t => cases t <;> rfl
  | cons v vs ih =>
    by_cases h : cur = some .MIXED
    · subst h
      rw [profileFold_cons, mergeType_mixed, profileFold_mixed]
      rfl
    · rw [profileFold_cons, ← ih]
      cases cur with
      | none => rfl
      | some t => cases t <;> simp_all [profileEarly]

/-- The profiler is the full linear scan, on either side of the threshold. -/
theorem profileList_eq_fold (tr : Bool) (l : List Value) :
    profileList tr l = finishProfile (profileFold tr none l) := by
  unfold profileList
  rw [profileEarly_eq_fold]
  split <;> rfl

/-- Splitting the full scan across an append. -/
theorem profileFold_append (tr : Bool) (cur : Option DataType) (l1 l2 : List Value) :
    profileFold tr cur (l1 ++ l2) = profileFold tr (profileFold tr cur l1) l2 := by
  simp [profileFold, List.foldl_append]

/-- A scan over elements that all infer as `EMPTY` keeps its state. -/
theorem profileFold_all_empty (tr : Bool) (l : List Value) (cur : Option DataType)
    (h : ∀ v ∈ l, inferValue tr v = .EMPTY) :
    profileFold tr cur l = cur := by
  induction l generalizing cur with
  | nil => rfl
  | cons v vs ih =>
    rw [profileFold_cons, h v (by simp)]
    rw [mergeType_empty]
    exact ih cur (fun w hw => h w (by simp [hw]))

/-- Characters below the uppercase range are fixed by lower-casing. -/
theorem lowerChar_of_lt (c : Char) (h : c.toNat < 65) : lowerChar c = c := by
  unfold lowerChar
  rw [if_neg]
  omega

/-- Digits are fixed by lower-casing. -/
theorem lowerChar_digit (c : Char) (h : isDigitC c = true) : lowerChar c = c := by
  apply lowerChar_of_lt
  simp [isDigitC] at h
  omega

/-- Sign characters are fixed by lower-casing. -/
theorem lowerChar_sign (c : Char) (h : isSignChar c = true) : lowerChar c = c := by
  simp [isSignChar] at h
  rcases h with h | h <;> subst h <;> decide

/-- A text of lower-fixed characters is fixed by lower-casing. -/
theorem lowerList_fix (cs : Chars) (h : ∀ c ∈ cs, lowerChar c = c) :
    lowerList cs = cs := by
  unfold lowerList
  induction cs with
  | nil => rfl
  | cons c rest ih =>
    simp only [List.map_cons]
    rw [h c (by simp), ih (fun d hd => h d (by simp [hd]))]

/-- Every character of an integer-like text is a sign or a digit. -/
theorem int_like_chars_sign_digit (cs : Chars) (h : is_int_like_chars cs = true) :
    ∀ c ∈ cs, (isSignChar c || isDigitC c) = true := by
  unfold is_int_like_chars stripSign at h
  intro c hc
  cases cs with
  | nil => simp at hc
  | cons a rest =>
    by_cases ha : isSignChar a = true
    · simp only [ha, if_true] at h
      simp at h
      rcases List.mem_cons.mp hc with rfl | hmem
      · simp [ha]
      · simp [h.2 c hmem]
    · simp only [ha, if_false] at h
      simp at h
      rcases List.mem_cons.mp hc with rfl | hmem
      · simp [h.1]
      · simp [h.2 c hmem]

/-- Integer-like text is fixed by lower-casing. -/
theorem int_like_chars_lower_fix (cs : Chars) (h : is_int_like_chars cs = true) :
    lowerList cs = cs := by
  apply lowerList_fix
  intro c hc
  have := int_like_chars_sign_digit cs h c hc
  rcases Bool.or_eq_true _ _ |>.mp this with hs | hd
  · exact lowerChar_sign c hs
  · exact lowerChar_digit c hd

/-- Every character of a float-like text is a sign, a digit or a dot. -/
theorem float_like_chars_sign_digit_dot (cs : Chars) (h : is_float_like_chars cs = true) :
    ∀ c ∈ cs, (isSignChar c || isDigitC c || c = '.') = true := by
  unfold is_float_like_chars stripSign at h
  intro c hc
  cases cs with
  | nil => simp at hc
  | cons a rest =>
    by_cases ha : isSignChar a = true
    · simp only [ha, if_true] at h
      simp at h
      rcases List.mem_cons.mp hc with rfl | hmem
      · simp [ha]
      · rcases h.1.1 c hmem with hx | hx <;> simp [hx]
    · simp only [ha, if_false] at h
      simp at h
      rcases List.mem_cons.mp hc with rfl | hmem
      · rcases h.1.1.1 with hx | hx <;> simp [hx]
      · rcases h.1.1.2 c hmem with hx | hx <;> simp [hx]

/-- Float-like text is fixed by lower-casing. -/
theorem float_like_chars_lower_fix (cs : Chars) (h : is_float_like_chars cs = true) :
    lowerList cs = cs := by
  apply lowerList_fix
  intro c hc
  have := float_like_chars_sign_digit_dot cs h c hc
  rcases Bool.or_eq_true _ _ |>.mp this with hsd | hdot
  · rcases Bool.or_eq_true _ _ |>.mp hsd with hs | hd
    · exact lowerChar_sign c hs
    · exact lowerChar_digit c hd
  · rw [of_decide_eq_true hdot]; decide

/-- Digit character of one decimal digit value. -/
def digitChar (n : Nat) : Char :=
  match n with
  | 0 => '0'
  | 1 => '1'
  | 2 => '2'
  | 3 => '3'
  | 4 => '4'
  | 5 => '5'
  | 6 => '6'
  | 7 => '7'
  | 8 => '8'
  | _ => '9'

/-- Modelled from the spec: the host decimal rendering of a natural number
(Python `str` on a non-negative integer), most significant digit first. -/
def natToChars (n : Nat) : Chars :=
  if _h : n < 10 then [digitChar n]
  else natToChars (n / 10) ++ [digitChar (n % 10)]
termination_by n
decreasing_by exact Nat.div_lt_self (by omega) (by omega)

/-- Modelled from the spec: the host decimal rendering `str(n)` of an
integer — a minus sign for negatives, digits otherwise. -/
def renderInt (n : Int) : Chars :=
  if n < 0 then '-' :: natToChars n.natAbs else natToChars n.natAbs

theorem dval_digitChar (n : Nat) (h : n < 10) : dval (digitChar n) = n := by
  interval_cases n <;> decide

theorem isDigitC_digitChar (n : Nat) (h : n < 10) : isDigitC (digitChar n) = true := by
  interval_cases n <;> decide

theorem charsToNat_append (ds : Chars) (c : Char) :
    charsToNat (ds ++ [c]) = charsToNat ds * 10 + dval c := by
  simp [charsToNat, List.foldl_append]

/-- Parsing inverts the decimal rendering of a natural number. -/
theorem charsToNat_natToChars (n : Nat) : charsToNat (natToChars n) = n := by
  induction n using Nat.strong_induction_on with
  | _ n ih =>
    rw [natToChars]
    split
    · rename_i h
      simp [charsToNat, dval_digitChar n h]
    · rename_i h
      rw [charsToNat_append, ih (n / 10) (Nat.div_lt_self (by omega) (by omega)),
        dval_digitChar (n % 10) (by omega)]
      omega

/-- The decimal rendering is never the empty text. -/
theorem natToChars_ne_nil (n : Nat) : natToChars n ≠ [] := by
  rw [natToChars]
  split <;> simp

/-- Every character of the decimal rendering is a digit. -/
theorem natToChars_all_digits (n : Nat) : ∀ c ∈ natToChars n, isDigitC c = true := by
  induction n using Nat.strong_induction_on with
  | _ n ih =>
    rw [natToChars]
    split
    · rename_i h
      intro c hc
      simp at hc
      subst hc
      exact isDigitC_digitChar n h
    · rename_i h
      intro c hc
      rcases List.mem_append.mp hc with hm | hm
      · exact ih (n / 10) (Nat.div_lt_self (by omega) (by omega)) c hm
      · simp at hm
        subst hm
        exact isDigitC_digitChar (n % 10) (by omega)

/-- A digit character is not a sign character. -/
theorem isSignChar_of_digit (c : Char) (h : isDigitC c = true) :
    isSignChar c = false := by
  simp only [isSignChar]
  simp [isDigitC] at h
  by_cases h1 : c = '+'
  · subst h1; simp at h
  · by_cases h2 : c = '-'
    · subst h2; simp at h
    · simp [h1, h2]

/-- A digit character is not whitespace. -/
theorem isSpaceC_of_digit (c : Char) (h : isDigitC c = true) :
    isSpaceC c = false := by
  simp [isDigitC] at h
  simp [isSpaceC]
  omega

/-- Trimming fixes a text containing no whitespace. -/
theorem trimList_fix (cs : Chars) (h : ∀ c ∈ cs, isSpaceC c = false) :
    trimList cs = cs := by
  have hleft : trimLeft cs = cs := by
    unfold trimLeft
    cases cs with
    | nil => rfl
    | cons a rest => simp [List.dropWhile_cons, h a (by simp)]
  unfold trimList
  rw [hleft]
  unfold trimRight
  cases hrev : cs.reverse with
  | nil => simp_all
  | cons a rest =>
    have ha : isSpaceC a = false := by
      apply h
      have : a ∈ cs.reverse := by simp [hrev]
      simpa using this
    rw [List.dropWhile_cons, ha]
    simp [← hrev]

/-- A text of signs and digits is never none-like. -/
theorem none_like_false_of_sign_digit (cs : Chars)
    (h : ∀ c ∈ cs, (isSignChar c || isDigitC c) = true) :
    is_none_like_chars cs = false := by
  unfold is_none_like_chars
  have hfix : lowerList cs = cs := by
    apply lowerList_fix
    intro c hc
    rcases Bool.or_eq_true _ _ |>.mp (h c hc) with hs | hd
    · exact lowerChar_sign c hs
    · exact lowerChar_digit c hd
  rw [hfix]
  have hne1 : cs ≠ "none".toList := by
    intro h1
    have := h 'o' (by rw [h1]; decide)
    revert this; decide
  have hne2 : cs ≠ "null".toList := by
    intro h2
    have := h 'u' (by rw [h2]; decide)
    revert this; decide
  simp
  exact ⟨by simpa using hne1, by simpa using hne2⟩

/-- A nonempty all-digit text is integer-like. -/
theorem int_like_of_digits (cs : Chars) (hne : cs ≠ [])
    (hall : ∀ c ∈ cs, isDigitC c = true) : is_int_like_chars cs = true := by
  cases cs with
  | nil => exact absurd rfl hne
  | cons c rest =>
    have hd := hall c (by simp)
    unfold is_int_like_chars stripSign
    simp only [isSignChar_of_digit c hd, if_neg]
    simp [List.all_eq_true]
    exact ⟨hd, fun x hx => hall x (by simp [hx])⟩

/-- A minus sign followed by a nonempty all-digit text is integer-like. -/
theorem int_like_of_neg_digits (cs : Chars) (hne : cs ≠ [])
    (hall : ∀ c ∈ cs, isDigitC c = true) :
    is_int_like_chars ('-' :: cs) = true := by
  unfold is_int_like_chars stripSign
  simp only [show isSignChar '-' = true from rfl, if_pos]
  simp [List.all_eq_true, hne]
  exact hall

/-- The decimal rendering of an integer is integer-like. -/
theorem is_int_like_chars_renderInt (n : Int) :
    is_int_like_chars (renderInt n) = true := by
  by_cases hn : n < 0
  · simp only [renderInt, if_pos hn]
    exact int_like_of_neg_digits _ (natToChars_ne_nil _) (natToChars_all_digits _)
  · simp only [renderInt, if_neg hn]
    exact int_like_of_digits _ (natToChars_ne_nil _) (natToChars_all_digits _)

/-- Reading a digit-headed text ignores the sign cases. -/
theorem readInt_digits (cs : Chars) (c : Char) (rest : Chars)
    (hcons : cs = c :: rest) (hd : isDigitC c = true) :
    readInt cs = (charsToNat cs : Int) := by
  subst hcons
  have h1 : c ≠ '-' := by
    intro hh; subst hh; simp [isDigitC] at hd
  have h2 : c ≠ '+' := by
    intro hh; subst hh; simp [isDigitC] at hd
  simp [readInt, h1, h2]

/-! ## Claim theorems -/

/-- Counterexample to claim C1 as stated: "hello" is a string whose
inferred type is `STRING`, yet `can_infer` returns false on it. -/
theorem claim_C1_counterexample :
    infer_type (.VStr "hello".toList) = .STRING ∧
    can_infer (.VStr "hello".toList) = false := by
  exact ⟨by decide, by decide⟩

/-- Claim C1 (amended): `can_infer` returns true exactly for string inputs
whose inferred type is not plain `STRING` — empty and whitespace-only
strings included, since they infer `EMPTY` — and returns false for strings
inferring `STRING`, for every non-string host value, and for the absence
marker. -/
theorem claim_C1 :
    (∀ v : Value,
      can_infer v = true ↔ ∃ s, v = .VStr s ∧ infer_type (.VStr s) ≠ .STRING) ∧
    can_infer (.VStr "123".toList) = true ∧
    can_infer (.VStr "".toList) = true ∧
    can_infer (.VStr "   ".toList) = true ∧
    can_infer (.VInt 123) = false ∧
    can_infer .VNone = false := by
  refine ⟨fun v => ?_, by decide, by decide, by decide, rfl, rfl⟩
  cases v with
  | VStr s =>
    simp only [can_infer, bne_iff_ne, ne_eq, Value.VStr.injEq]
    constructor
    · intro h
      exact ⟨s, rfl, h⟩
    · rintro ⟨t, rfl, hne⟩
      exact hne
  | VInt n => simp [can_infer]
  | VFloat f => simp [can_infer]
  | VBool b => simp [can_infer]
  | VDate y m d => simp [can_infer]
  | VTime h mi s => simp [can_infer]
  | VDatetime y mo d h mi s => simp [can_infer]
  | VNone => simp [can_infer]

/-- Witness for C1 at a concrete string input whose inference goes beyond
plain STRING. -/
theorem claim_C1_witness : can_infer (.VStr "123".toList) = true :=
  (claim_C1.1 (.VStr "123".toList)).mpr ⟨"123".toList, rfl, by decide⟩

/-- Claim C4: `profile_values` signals the descriptive usage error exactly
for string and non-iterable arguments, and returns a `DataType` without
failing for every iterable non-string argument. -/
theorem claim_C4 :
    (∀ v : Value, ∀ tr : Bool,
      profile_values (.scalar v) tr = .error "values must be iterable".toList) ∧
    (∀ l : List Value, ∀ tr : Bool,
      profile_values (.seq l) tr = .ok (profileList tr l)) := by
  exact ⟨fun v tr => rfl, fun l tr => rfl⟩

/-- Claim C8: grammar-shaped but calendar/clock-invalid values yield the
absent result rather than failing — Feb 30 and hour 25 convert to no
value, validate as false, and fall back to plain `STRING` under
inference. -/
theorem claim_C8 :
    to_date "2023-02-30".toList = none ∧
    to_time "25:00:00".toList = none ∧
    to_datetime "2023-02-30T12:00:00".toList = none ∧
    is_date_like "2023-02-30".toList = false ∧
    is_time_like "25:00:00".toList = false ∧
    infer_type (.VStr "2023-02-30".toList) = .STRING ∧
    infer_type (.VStr "25:00:00".toList) = .STRING := by
  refine ⟨by decide, by decide, by decide, by decide, by decide, by decide, by decide⟩

/-- Claim C2: the profiler folds element types pairwise — `INTEGER` with
`FLOAT` in either order widens to `FLOAT`, any other differing pair of
non-empty types (including `NONE` with any other type) collapses to
`MIXED`, and a `MIXED` verdict can never be changed by further elements,
so stopping the scan early at `MIXED` is sound. -/
theorem claim_C2 :
    mergeType (some .INTEGER) .FLOAT = some .FLOAT ∧
    mergeType (some .FLOAT) .INTEGER = some .FLOAT ∧
    (∀ a b : DataType, a ≠ b → a ≠ .EMPTY → b ≠ .EMPTY →
      ¬(a = .INTEGER ∧ b = .FLOAT) → ¬(a = .FLOAT ∧ b = .INTEGER) →
      mergeType (some a) b = some .MIXED) ∧
    (∀ (tr : Bool) (l1 l2 : List Value),
      profileList tr l1 = .MIXED → profileList tr (l1 ++ l2) = .MIXED) := by
  refine ⟨by decide, by decide, fun a b => by cases a <;> cases b <;> decide,
    fun tr l1 l2 h => ?_⟩
  rw [profileList_eq_fold] at h ⊢
  have hfold : profileFold tr none l1 = some .MIXED := by
    cases hc : profileFold tr none l1 with
    | none => rw [hc] at h; exact absurd h (by decide)
    | some t =>
      rw [hc] at h
      cases t <;> simp_all [finishProfile]
  rw [profileFold_append, hfold, profileFold_mixed]
  rfl

/-- Witness for C2 at concrete inputs: BOOLEAN and DATE merge to MIXED,
and a MIXED profile stays MIXED after appending. -/
theorem claim_C2_witness :
    mergeType (some .BOOLEAN) .DATE = some .MIXED ∧
    profileList true ([.VStr "1".toList, .VStr "abc".toList] ++ [.VStr "2".toList]) = .MIXED := by
  constructor
  · exact claim_C2.2.2.1 .BOOLEAN .DATE (by decide) (by decide) (by decide)
      (by decide) (by decide)
  · exact claim_C2.2.2.2 true [.VStr "1".toList, .VStr "abc".toList]
      [.VStr "2".toList] (by decide)

/-- Claim C3: the profile of an empty sequence is `EMPTY`; elements that
infer as `EMPTY` are skipped and never set or change the dominant type, so
an all-empty sequence profiles as `EMPTY` and empties mixed with one
dominant type leave that type. -/
theorem claim_C3 :
    profile_values (.seq []) = .ok .EMPTY ∧
    (∀ cur : Option DataType, mergeType cur .EMPTY = cur) ∧
    (∀ (tr : Bool) (l : List Value),
      (∀ v ∈ l, inferValue tr v = .EMPTY) → profileList tr l = .EMPTY) ∧
    profileList true [.VStr "".toList, .VStr "   ".toList] = .EMPTY ∧
    profileList true [.VStr "".toList, .VStr "1".toList, .VStr "".toList] = .INTEGER := by
  refine ⟨rfl, mergeType_empty, fun tr l h => ?_, by decide, by decide⟩
  rw [profileList_eq_fold, profileFold_all_empty tr l none h]
  rfl

/-- Witness for C3: an all-empty concrete sequence profiles as EMPTY. -/
theorem claim_C3_witness :
    profileList true [.VStr "".toList, .VStr "\t\n".toList] = .EMPTY :=
  claim_C3.2.2.1 true [.VStr "".toList, .VStr "\t\n".toList] (by decide)

/-- The full scan over copies of the text "1" keeps an `INTEGER` state. -/
theorem profileFold_replicate_one (k : Nat) :
    profileFold true (some .INTEGER) (List.replicate k (.VStr "1".toList)) =
      some .INTEGER := by
  induction k with
  | zero => rfl
  | succ m ih =>
    rw [List.replicate_succ, profileFold_cons]
    have h1 : inferValue true (.VStr "1".toList) = .INTEGER := by decide
    rw [h1, show mergeType (some .INTEGER) .INTEGER = some .INTEGER from rfl]
    exact ih

/-- Claim C5: the incremental-typecheck threshold is a positive integer
constant, and the profiler computes exactly what a full linear scan
computes on every sequence — in particular sequences of copies of "1" on
either side of the threshold both profile as `INTEGER`. -/
theorem claim_C5 :
    0 < get_incremental_typecheck_threshold ∧
    (∀ (tr : Bool) (l : List Value),
      profileList tr l = finishProfile (profileFold tr none l)) ∧
    (∀ n : Nat, 0 < n →
      profileList true (List.replicate n (.VStr "1".toList)) = .INTEGER) := by
  refine ⟨by decide, profileList_eq_fold, fun n hn => ?_⟩
  cases n with
  | zero => omega
  | succ m =>
    rw [profileList_eq_fold, List.replicate_succ, profileFold_cons]
    have h1 : inferValue true (.VStr "1".toList) = .INTEGER := by decide
    rw [h1, show mergeType none .INTEGER = some .INTEGER from rfl,
      profileFold_replicate_one]
    rfl

/-- Witness for C5: sequences of 999 and of 1001 copies of "1", straddling
the threshold, profile identically as `INTEGER`. -/
theorem claim_C5_witness :
    profileList true (List.replicate 999 (.VStr "1".toList)) = .INTEGER ∧
    profileList true (List.replicate 1001 (.VStr "1".toList)) = .INTEGER :=
  ⟨claim_C5.2.2 999 (by omega), claim_C5.2.2 1001 (by omega)⟩

/-- Claim C6: inference yields `BOOLEAN` for exactly the case-insensitive
word set true/false/yes/no, and because the numeric checks run first the
texts "1" and "0" infer as `INTEGER`, never `BOOLEAN`. -/
theorem claim_C6 :
    (∀ s : Chars,
      infer_type (.VStr s) = .BOOLEAN ↔
        (lowerList (trimList s) = "true".toList ∨
         lowerList (trimList s) = "false".toList ∨
         lowerList (trimList s) = "yes".toList ∨
         lowerList (trimList s) = "no".toList)) ∧
    infer_type (.VStr "1".toList) = .INTEGER ∧
    infer_type (.VStr "0".toList) = .INTEGER := by
  refine ⟨fun s => ?_, by decide, by decide⟩
  have htrim : infer_type (.VStr s) = inferStr (trimList s) := by
    simp [infer_type, inferValue, applyTrim]
  rw [htrim]
  constructor
  · intro h
    unfold inferStr at h
    split_ifs at h with h1 h2 h3 h4 h5 h6 h7 h8
    all_goals try simp at h
    have h5x := h5
    simp [is_bool_like_chars] at h5x
    tauto
  · intro hmem
    have hne : trimList s ≠ [] := by
      intro h0
      rw [h0] at hmem
      revert hmem
      decide
    have hnone : is_none_like_chars (trimList s) = false := by
      unfold is_none_like_chars
      rcases hmem with h | h | h | h <;> rw [h] <;> decide
    have hint : is_int_like_chars (trimList s) = false := by
      by_contra hc
      have hc2 : is_int_like_chars (trimList s) = true := by
        revert hc; cases is_int_like_chars (trimList s) <;> simp
      have hfix := int_like_chars_lower_fix _ hc2
      rcases hmem with h | h | h | h <;> rw [hfix] at h <;> rw [h] at hc2 <;>
        exact absurd hc2 (by decide)
    have hfloat : is_float_like_chars (trimList s) = false := by
      by_contra hc
      have hc2 : is_float_like_chars (trimList s) = true := by
        revert hc; cases is_float_like_chars (trimList s) <;> simp
      have hfix := float_like_chars_lower_fix _ hc2
      rcases hmem with h | h | h | h <;> rw [hfix] at h <;> rw [h] at hc2 <;>
        exact absurd hc2 (by decide)
    have hbool : is_bool_like_chars (trimList s) = true := by
      unfold is_bool_like_chars
      rcases hmem with h | h | h | h <;> simp [h]
    have hempty : (trimList s).isEmpty = false := by
      cases hh : trimList s with
      | nil => exact absurd hh hne
      | cons a r => rfl
    unfold inferStr
    simp [hempty, hnone, hint, hfloat, hbool]

/-- Witness for C6: "TRUE" infers as BOOLEAN through the word-set
characterization. -/
theorem claim_C6_witness : infer_type (.VStr "TRUE".toList) = .BOOLEAN :=
  (claim_C6.1 "TRUE".toList).mpr (by decide)

/-- Claim C7: scientific-notation text such as "1.23e10" is not
float-like and not numeric-like, infers as plain `STRING` and converts to
itself unchanged, while ".5", "5." and plain digit strings are
float-like. -/
theorem claim_C7 :
    is_float_like "1.23e10".toList = false ∧
    is_numeric_like (.VStr "1.23e10".toList) = false ∧
    infer_type (.VStr "1.23e10".toList) = .STRING ∧
    convert_value (.VStr "1.23e10".toList) = .VStr "1.23e10".toList ∧
    is_float_like ".5".toList = true ∧
    is_float_like "5.".toList = true ∧
    (∀ cs : Chars, cs ≠ [] → (∀ c ∈ cs, isDigitC c = true) →
      is_float_like_chars cs = true) := by
  refine ⟨by decide, by decide, by decide, by decide, by decide, by decide,
    fun cs hne hall => ?_⟩
  cases cs with
  | nil => exact absurd rfl hne
  | cons c rest =>
    have hd := hall c (by simp)
    have hnodot : List.filter (fun x => decide (x = '.')) (c :: rest) = [] := by
      rw [List.filter_eq_nil_iff]
      intro x hx
      have hxd := hall x hx
      simp
      intro h0
      rw [h0] at hxd
      exact absurd hxd (by decide)
    unfold is_float_like_chars stripSign
    simp only [isSignChar_of_digit c hd, if_neg]
    simp [List.all_eq_true, hnodot]
    exact ⟨⟨Or.inl hd, fun x hx => Or.inl (hall x (by simp [hx]))⟩, Or.inl hd⟩

/-- Witness for C7: the digit string "123" is float-like. -/
theorem claim_C7_witness : is_float_like_chars "123".toList = true :=
  claim_C7.2.2.2.2.2.2 "123".toList (by decide) (by decide)

/-- Every character of the decimal rendering is a sign or a digit. -/
theorem renderInt_sign_digit (n : Int) :
    ∀ c ∈ renderInt n, (isSignChar c || isDigitC c) = true := by
  intro c hc
  unfold renderInt at hc
  by_cases hn : n < 0
  · rw [if_pos hn] at hc
    rcases List.mem_cons.mp hc with rfl | hm
    · decide
    · simp [natToChars_all_digits _ c hm]
  · rw [if_neg hn] at hc
    simp [natToChars_all_digits _ c hc]

/-- Trimming fixes the decimal rendering of an integer. -/
theorem trimList_renderInt (n : Int) : trimList (renderInt n) = renderInt n := by
  apply trimList_fix
  intro c hc
  rcases Bool.or_eq_true _ _ |>.mp (renderInt_sign_digit n c hc) with hs | hd
  · simp [isSignChar] at hs
    rcases hs with rfl | rfl <;> decide
  · exact isSpaceC_of_digit c hd

/-- Parsing inverts the signed decimal rendering. -/
theorem readInt_renderInt (n : Int) : readInt (renderInt n) = n := by
  by_cases hn : n < 0
  · simp only [renderInt, if_pos hn]
    have hstep : readInt ('-' :: natToChars n.natAbs) =
        -(charsToNat (natToChars n.natAbs) : Int) := by
      simp [readInt]
    rw [hstep, charsToNat_natToChars]
    omega
  · simp only [renderInt, if_neg hn]
    obtain ⟨c, rest, hcons⟩ : ∃ c rest, natToChars n.natAbs = c :: rest := by
      cases hh : natToChars n.natAbs with
      | nil => exact absurd hh (natToChars_ne_nil _)
      | cons c rest => exact ⟨c, rest, rfl⟩
    have hd : isDigitC c = true :=
      natToChars_all_digits _ c (by rw [hcons]; simp)
    rw [readInt_digits _ c rest hcons hd, charsToNat_natToChars]
    omega

/-- Claim C9: converting the decimal rendering of any integer returns that
integer, and inference on any integer-like text never yields `FLOAT`. -/
theorem claim_C9 :
    (∀ n : Int, convert_value (.VStr (renderInt n)) = .VInt n) ∧
    (∀ s : Chars, is_int_like s = true → infer_type (.VStr s) ≠ .FLOAT) := by
  constructor
  · intro n
    have htrim := trimList_renderInt n
    have hint := is_int_like_chars_renderInt n
    have hnone := none_like_false_of_sign_digit _ (renderInt_sign_digit n)
    have hempty : (renderInt n).isEmpty = false := by
      unfold renderInt
      split
      · rfl
      · cases hh : natToChars n.natAbs with
        | nil => exact absurd hh (natToChars_ne_nil _)
        | cons a r => rfl
    show convertStr (renderInt n) = .VInt n
    simp [convertStr, htrim, hempty, hnone, hint, readInt_renderInt n]
  · intro s h hcontra
    simp only [is_int_like, applyTrim, if_pos] at h
    simp only [infer_type, inferValue, applyTrim, if_pos] at hcontra
    unfold inferStr at hcontra
    split_ifs at hcontra with h1 h2

/-- Witness for C9: converting "str(-42)" returns -42, and the
integer-like text "00123" does not infer as FLOAT. -/
theorem claim_C9_witness :
    convert_value (.VStr (renderInt (-42))) = .VInt (-42) ∧
    infer_type (.VStr "00123".toList) ≠ .FLOAT :=
  ⟨claim_C9.1 (-42), claim_C9.2 "00123".toList (by decide)⟩

/-- Claim C10: converting a string that is empty or all-whitespace
returns the trimmed empty string (not the original input), and converting
a string that is case-insensitively "none" or "null" returns the absence
marker. -/
theorem claim_C10 :
    (∀ s : Chars, trimList s = [] → convert_value (.VStr s) = .VStr []) ∧
    (∀ s : Chars,
      (lowerList (trimList s) = "none".toList ∨
       lowerList (trimList s) = "null".toList) →
      convert_value (.VStr s) = .VNone) ∧
    convert_value (.VStr "   ".toList) ≠ .VStr "   ".toList ∧
    convert_value (.VStr "None".toList) ≠ .VStr "None".toList := by
  refine ⟨fun s h => ?_, fun s h => ?_, by decide, by decide⟩
  · show convertStr s = .VStr []
    unfold convertStr
    simp [h]
  · show convertStr s = .VNone
    have hne : trimList s ≠ [] := by
      intro h0
      rw [h0] at h
      revert h
      decide
    have hempty : (trimList s).isEmpty = false := by
      cases hh : trimList s with
      | nil => exact absurd hh hne
      | cons a r => rfl
    have hnone : is_none_like_chars (trimList s) = true := by
      unfold is_none_like_chars
      rcases h with h | h <;> simp [h]
    unfold convertStr
    simp [hempty, hnone]

/-- Witness for C10 at concrete inputs: an all-whitespace string converts
to the empty string and "NULL" converts to the absence marker. -/
theorem claim_C10_witness :
    convert_value (.VStr "  \t ".toList) = .VStr [] ∧
    convert_value (.VStr "NULL".toList) = .VNone :=
  ⟨claim_C10.1 "  \t ".toList (by decide),
   claim_C10.2.1 "NULL".toList (by decide)⟩

end SplurgeTyper
